import Mathlib

/-!
Verification development for the srclib grapher normalization pipeline
(grapher/grapher.go together with the graph data model of def.proto).

The pipeline code is embedded shallowly:

* records carry the fields that NormalizeData reads or writes (File and the
  two offset fields, plus identity fields; payload fields that the pipeline
  never touches are carried implicitly and omitted here);
* the file system visible to one normalization pass is a fixed map from
  absolute path to the decoded rune content of the file, with none standing
  both for a missing or non-regular file and for an unreadable one (in the
  source the two differ only in logging, not in the resulting state);
* the external collaborators of the pipeline (URI canonicalizer, the three
  validators, the four sort comparators) are parameters, as the spec treats
  them as black boxes at their interface boundary;
* the position index of the fileset package is modelled from the spec: a
  per-file pure function from rune offset to byte offset that fails instead
  of clamping when the rune offset is beyond the content (in the source the
  failure is a panic recovered inside fix, here it is Option.none). The
  concrete scenario of the spec (the cafe file: five code points, six bytes,
  rune offset 4 converting to byte offset 6) pins down the convention: the
  byte offset returned for rune offset r is the end of rune r, that is the
  total byte width of the first r+1 runes.
-/

namespace Grapher

/-- Def is a definition in code (graph/def.proto); the fields NormalizeData
touches are File, DefStart and DefEnd, with Path and Name kept as identity. -/
structure Def where
  Path : String
  Name : String
  File : String
  DefStart : Int
  DefEnd : Int
deriving DecidableEq, Repr

/-- Ref is a reference; NormalizeData rewrites DefRepo and converts Start
and End keyed on File. -/
structure Ref where
  DefRepo : String
  File : String
  Start : Int
  End : Int
deriving DecidableEq, Repr

/-- Doc is a documentation block with a position range. -/
structure Doc where
  File : String
  Start : Int
  End : Int
deriving DecidableEq, Repr

/-- Ann is an annotation with a position range. -/
structure Ann where
  File : String
  Start : Int
  End : Int
deriving DecidableEq, Repr

/-- Output is produced by grapher tools: the four graph collections. -/
structure Output where
  Defs : List Def
  Refs : List Ref
  Docs : List Doc
  Anns : List Ann
deriving DecidableEq, Repr

/-- OffsetType selects the offset convention of the grapher output. -/
inductive OffsetType where
  | OffsetUnspecified
  | OffsetChar
  | OffsetByte
deriving DecidableEq, Repr

/-- The file system seen by one normalization pass: absolute path to the
decoded rune content of a readable regular file; none when the path is
missing, not a regular file, or unreadable. -/
def FileSystem : Type := String → Option (List Char)

/-- filepath.Join of a directory and a relative filename, for the purposes
of this development: the joined path. -/
def filepathJoin (dir filename : String) : String :=
  if dir = "" then filename else dir ++ "/" ++ filename

/-- Modelled from the spec: the position index of the external fileset
package maps a rune offset to a byte offset in the given content and fails
(none, a recovered panic in the source) when the rune offset is out of
range. Per the concrete scenario of the spec, rune offset r maps to the
byte offset of the end of rune r: the summed UTF-8 widths of runes 0..r. -/
def ByteOffsetOfRune (content : List Char) (offset : Int) : Option Int :=
  if 0 ≤ offset ∧ offset < (content.length : Int) then
    some (((content.take (offset.toNat + 1)).map (fun c => (c.utf8Size : Int))).sum)
  else
    none

/-- One offset field inside the conversion loop of fix: the sentinel 0 is
skipped untouched, any other value is looked up in the position index;
none is the recovered panic. -/
def fixOffset (content : List Char) (offset : Int) : Option Int :=
  if offset = 0 then some offset else ByteOffsetOfRune content offset

/-- fix from ensureOffsetsAreByteOffsets, for one record carrying two offset
fields (every call site passes exactly two). Empty filename or a path that
does not resolve to a readable regular file is a silent no-op. Offsets are
processed left to right; the first failing lookup aborts the rest of this
record only, keeping the failing and following fields at their old values
(the recover in the source is scoped to one fix call). -/
def fix (fs : FileSystem) (dir filename : String) (o1 o2 : Int) : Int × Int :=
  if filename = "" then (o1, o2)
  else
    match fs (filepathJoin dir filename) with
    | none => (o1, o2)
    | some content =>
      match fixOffset content o1 with
      | none => (o1, o2)
      | some b1 =>
        match fixOffset content o2 with
        | none => (b1, o2)
        | some b2 => (b1, b2)

/-- The fix call for one Def: fix(s.File, &s.DefStart, &s.DefEnd). -/
def fixDef (fs : FileSystem) (dir : String) (d : Def) : Def :=
  { d with
    DefStart := (fix fs dir d.File d.DefStart d.DefEnd).1
    DefEnd := (fix fs dir d.File d.DefStart d.DefEnd).2 }

/-- The fix call for one Ref: fix(r.File, &r.Start, &r.End). -/
def fixRef (fs : FileSystem) (dir : String) (r : Ref) : Ref :=
  { r with
    Start := (fix fs dir r.File r.Start r.End).1
    End := (fix fs dir r.File r.Start r.End).2 }

/-- The fix call for one Doc: fix(d.File, &d.Start, &d.End). -/
def fixDoc (fs : FileSystem) (dir : String) (d : Doc) : Doc :=
  { d with
    Start := (fix fs dir d.File d.Start d.End).1
    End := (fix fs dir d.File d.Start d.End).2 }

/-- The fix call for one Ann: fix(a.File, &a.Start, &a.End). -/
def fixAnn (fs : FileSystem) (dir : String) (a : Ann) : Ann :=
  { a with
    Start := (fix fs dir a.File a.Start a.End).1
    End := (fix fs dir a.File a.Start a.End).2 }

/-- ensureOffsetsAreByteOffsets: run fix over every record of the four
collections. -/
def ensureOffsetsAreByteOffsets (fs : FileSystem) (dir : String) (output : Output) : Output :=
  { Defs := output.Defs.map (fixDef fs dir)
    Refs := output.Refs.map (fixRef fs dir)
    Docs := output.Docs.map (fixDoc fs dir)
    Anns := output.Anns.map (fixAnn fs dir) }

/-- The external collaborators NormalizeData delegates to: graph.MakeURI,
the three validators (an error is some message), and the comparators that
the sort step uses for the four collections. -/
structure Collaborators where
  MakeURI : String → String
  ValidateRefs : List Ref → Option String
  ValidateDefs : List Def → Option String
  ValidateDocs : List Doc → Option String
  defLe : Def → Def → Bool
  refLe : Ref → Ref → Bool
  docLe : Doc → Doc → Bool
  annLe : Ann → Ann → Bool

/-- The DefRepo rewrite applied to one Ref at the top of NormalizeData. -/
def rewriteRef (c : Collaborators) (r : Ref) : Ref :=
  if r.DefRepo ≠ "" then { r with DefRepo := c.MakeURI r.DefRepo } else r

/-- The DefRepo rewrite over the whole Refs collection. -/
def rewriteDefRepos (c : Collaborators) (refs : List Ref) : List Ref :=
  refs.map (rewriteRef c)

/-- strings.HasPrefix, on decoded rune content (the prefixes in question
are ASCII, where the two notions coincide). -/
def hasPrefixStr (pre s : String) : Bool :=
  List.isPrefixOf pre.data s.data

/-- The conversion decision of NormalizeData: explicit Char converts,
explicit Byte does not, Unspecified falls back to the unit-type heuristic
excluding GoPackage, Dockerfile and Java-prefixed unit types. -/
def convertOffsetsFor (offsetType : OffsetType) (unitType : String) : Bool :=
  match offsetType with
  | OffsetType.OffsetChar => true
  | OffsetType.OffsetByte => false
  | OffsetType.OffsetUnspecified =>
      (unitType != "GoPackage") && (unitType != "Dockerfile") &&
        !(hasPrefixStr "Java" unitType)

/-- sortedOutput: sort the four collections with the comparators owned by
the graph schema collaborator. The source uses the standard library sort;
any deterministic comparison sort agrees with it on the facts proved here
(the result is sorted and a permutation of the input), so the structural
insertion sort is used. -/
def sortedOutput (c : Collaborators) (o : Output) : Output :=
  { Defs := List.insertionSort (fun a b => c.defLe a b = true) o.Defs
    Refs := List.insertionSort (fun a b => c.refLe a b = true) o.Refs
    Docs := List.insertionSort (fun a b => c.docLe a b = true) o.Docs
    Anns := List.insertionSort (fun a b => c.annLe a b = true) o.Anns }

/-- The state of the Output after the rewrite and the conditional
conversion, just before validation (the in-place state the caller observes
when a validator rejects). -/
def convertedOutput (c : Collaborators) (fs : FileSystem) (offsetType : OffsetType)
    (unitType dir : String) (o : Output) : Output :=
  let o' := { o with Refs := rewriteDefRepos c o.Refs }
  if convertOffsetsFor offsetType unitType then ensureOffsetsAreByteOffsets fs dir o' else o'

/-- NormalizeData: DefRepo rewrite, conversion decision and application,
the three validators in order with fail-fast, then the sort. The pair
returned is the Go error together with the in-place state of the Output
when the call returns. -/
def NormalizeData (c : Collaborators) (fs : FileSystem) (offsetType : OffsetType)
    (unitType dir : String) (o : Output) : Option String × Output :=
  let co := convertedOutput c fs offsetType unitType dir o
  match c.ValidateRefs co.Refs with
  | some e => (some e, co)
  | none =>
    match c.ValidateDefs co.Defs with
    | some e => (some e, co)
    | none =>
      match c.ValidateDocs co.Docs with
      | some e => (some e, co)
      | none => (none, sortedOutput c co)

end Grapher

namespace Grapher

/-! ### Basic facts about fix -/

/-- The sentinel offset 0 is never looked up. -/
theorem fixOffset_zero (content : List Char) : fixOffset content 0 = some 0 := by
  simp [fixOffset]

/-- fix with an empty filename is a no-op. -/
theorem fix_file_empty (fs : FileSystem) (dir : String) (o1 o2 : Int) :
    fix fs dir "" o1 o2 = (o1, o2) := by
  simp [fix]

/-- fix on a path that is not a readable regular file is a no-op. -/
theorem fix_fs_none (fs : FileSystem) (dir filename : String) (o1 o2 : Int)
    (hfs : fs (filepathJoin dir filename) = none) :
    fix fs dir filename o1 o2 = (o1, o2) := by
  by_cases h : filename = ""
  · simp [fix, h]
  · simp [fix, h, hfs]

/-- fix on a readable file runs the two lookups left to right. -/
theorem fix_fs_some (fs : FileSystem) (dir filename : String) (content : List Char)
    (o1 o2 : Int) (h : filename ≠ "") (hfs : fs (filepathJoin dir filename) = some content) :
    fix fs dir filename o1 o2 =
      match fixOffset content o1 with
      | none => (o1, o2)
      | some b1 =>
        match fixOffset content o2 with
        | none => (b1, o2)
        | some b2 => (b1, b2) := by
  simp [fix, h, hfs]

/-- A zero first offset stays zero through fix. -/
theorem fix_fst_zero (fs : FileSystem) (dir filename : String) (o2 : Int) :
    (fix fs dir filename 0 o2).1 = 0 := by
  by_cases h : filename = ""
  · simp [fix, h]
  · cases hc : fs (filepathJoin dir filename) with
    | none => simp [fix, h, hc]
    | some content =>
      cases ho2 : fixOffset content o2 <;> simp [fix, h, hc, fixOffset_zero, ho2]

/-- A zero second offset stays zero through fix. -/
theorem fix_snd_zero (fs : FileSystem) (dir filename : String) (o1 : Int) :
    (fix fs dir filename o1 0).2 = 0 := by
  by_cases h : filename = ""
  · simp [fix, h]
  · cases hc : fs (filepathJoin dir filename) with
    | none => simp [fix, h, hc]
    | some content =>
      cases ho1 : fixOffset content o1 <;> simp [fix, h, hc, fixOffset_zero, ho1]

/-! ### Record-level conversion facts -/

theorem fixDef_File (fs : FileSystem) (dir : String) (d : Def) :
    (fixDef fs dir d).File = d.File := rfl

theorem fixRef_File (fs : FileSystem) (dir : String) (r : Ref) :
    (fixRef fs dir r).File = r.File := rfl

theorem fixDoc_File (fs : FileSystem) (dir : String) (d : Doc) :
    (fixDoc fs dir d).File = d.File := rfl

theorem fixAnn_File (fs : FileSystem) (dir : String) (a : Ann) :
    (fixAnn fs dir a).File = a.File := rfl

theorem fixDef_zero_start (fs : FileSystem) (dir : String) (d : Def)
    (h : d.DefStart = 0) : (fixDef fs dir d).DefStart = 0 := by
  simp [fixDef, h, fix_fst_zero]

theorem fixDef_zero_end (fs : FileSystem) (dir : String) (d : Def)
    (h : d.DefEnd = 0) : (fixDef fs dir d).DefEnd = 0 := by
  simp [fixDef, h, fix_snd_zero]

theorem fixRef_zero_start (fs : FileSystem) (dir : String) (r : Ref)
    (h : r.Start = 0) : (fixRef fs dir r).Start = 0 := by
  simp [fixRef, h, fix_fst_zero]

theorem fixRef_zero_end (fs : FileSystem) (dir : String) (r : Ref)
    (h : r.End = 0) : (fixRef fs dir r).End = 0 := by
  simp [fixRef, h, fix_snd_zero]

theorem fixDoc_zero_start (fs : FileSystem) (dir : String) (d : Doc)
    (h : d.Start = 0) : (fixDoc fs dir d).Start = 0 := by
  simp [fixDoc, h, fix_fst_zero]

theorem fixDoc_zero_end (fs : FileSystem) (dir : String) (d : Doc)
    (h : d.End = 0) : (fixDoc fs dir d).End = 0 := by
  simp [fixDoc, h, fix_snd_zero]

theorem fixAnn_zero_start (fs : FileSystem) (dir : String) (a : Ann)
    (h : a.Start = 0) : (fixAnn fs dir a).Start = 0 := by
  simp [fixAnn, h, fix_fst_zero]

theorem fixAnn_zero_end (fs : FileSystem) (dir : String) (a : Ann)
    (h : a.End = 0) : (fixAnn fs dir a).End = 0 := by
  simp [fixAnn, h, fix_snd_zero]

/-- The DefRepo rewrite never touches File or the offsets. -/
theorem rewriteRef_File (c : Collaborators) (r : Ref) :
    (rewriteRef c r).File = r.File := by
  unfold rewriteRef; split <;> rfl

theorem rewriteRef_Start (c : Collaborators) (r : Ref) :
    (rewriteRef c r).Start = r.Start := by
  unfold rewriteRef; split <;> rfl

theorem rewriteRef_End (c : Collaborators) (r : Ref) :
    (rewriteRef c r).End = r.End := by
  unfold rewriteRef; split <;> rfl

/-! ### The converted (pre-validation) state -/

theorem convertedOutput_Defs (c : Collaborators) (fs : FileSystem) (ot : OffsetType)
    (ut dir : String) (o : Output) :
    (convertedOutput c fs ot ut dir o).Defs =
      if convertOffsetsFor ot ut then o.Defs.map (fixDef fs dir) else o.Defs := by
  unfold convertedOutput ensureOffsetsAreByteOffsets
  split <;> rfl

theorem convertedOutput_Refs (c : Collaborators) (fs : FileSystem) (ot : OffsetType)
    (ut dir : String) (o : Output) :
    (convertedOutput c fs ot ut dir o).Refs =
      if convertOffsetsFor ot ut then (rewriteDefRepos c o.Refs).map (fixRef fs dir)
      else rewriteDefRepos c o.Refs := by
  unfold convertedOutput ensureOffsetsAreByteOffsets
  split <;> rfl

theorem convertedOutput_Docs (c : Collaborators) (fs : FileSystem) (ot : OffsetType)
    (ut dir : String) (o : Output) :
    (convertedOutput c fs ot ut dir o).Docs =
      if convertOffsetsFor ot ut then o.Docs.map (fixDoc fs dir) else o.Docs := by
  unfold convertedOutput ensureOffsetsAreByteOffsets
  split <;> rfl

theorem convertedOutput_Anns (c : Collaborators) (fs : FileSystem) (ot : OffsetType)
    (ut dir : String) (o : Output) :
    (convertedOutput c fs ot ut dir o).Anns =
      if convertOffsetsFor ot ut then o.Anns.map (fixAnn fs dir) else o.Anns := by
  unfold convertedOutput ensureOffsetsAreByteOffsets
  split <;> rfl

/-- The converted state does not depend on the Anns collection except in
its own Anns field. -/
theorem convertedOutput_anns_independent (c : Collaborators) (fs : FileSystem)
    (ot : OffsetType) (ut dir : String) (o : Output) (anns2 : List Ann) :
    (convertedOutput c fs ot ut dir { o with Anns := anns2 }).Defs
        = (convertedOutput c fs ot ut dir o).Defs ∧
      (convertedOutput c fs ot ut dir { o with Anns := anns2 }).Refs
        = (convertedOutput c fs ot ut dir o).Refs ∧
      (convertedOutput c fs ot ut dir { o with Anns := anns2 }).Docs
        = (convertedOutput c fs ot ut dir o).Docs := by
  refine ⟨?_, ?_, ?_⟩ <;>
    simp [convertedOutput_Defs, convertedOutput_Refs, convertedOutput_Docs]

/-! ### Case analysis of NormalizeData -/

theorem normalizeData_refs_some (c : Collaborators) (fs : FileSystem) (ot : OffsetType)
    (ut dir : String) (o : Output) (e : String)
    (h : c.ValidateRefs (convertedOutput c fs ot ut dir o).Refs = some e) :
    NormalizeData c fs ot ut dir o = (some e, convertedOutput c fs ot ut dir o) := by
  simp [NormalizeData, h]

theorem normalizeData_defs_some (c : Collaborators) (fs : FileSystem) (ot : OffsetType)
    (ut dir : String) (o : Output) (e : String)
    (hr : c.ValidateRefs (convertedOutput c fs ot ut dir o).Refs = none)
    (h : c.ValidateDefs (convertedOutput c fs ot ut dir o).Defs = some e) :
    NormalizeData c fs ot ut dir o = (some e, convertedOutput c fs ot ut dir o) := by
  simp [NormalizeData, hr, h]

theorem normalizeData_docs_some (c : Collaborators) (fs : FileSystem) (ot : OffsetType)
    (ut dir : String) (o : Output) (e : String)
    (hr : c.ValidateRefs (convertedOutput c fs ot ut dir o).Refs = none)
    (hd : c.ValidateDefs (convertedOutput c fs ot ut dir o).Defs = none)
    (h : c.ValidateDocs (convertedOutput c fs ot ut dir o).Docs = some e) :
    NormalizeData c fs ot ut dir o = (some e, convertedOutput c fs ot ut dir o) := by
  simp [NormalizeData, hr, hd, h]

theorem normalizeData_all_none (c : Collaborators) (fs : FileSystem) (ot : OffsetType)
    (ut dir : String) (o : Output)
    (hr : c.ValidateRefs (convertedOutput c fs ot ut dir o).Refs = none)
    (hd : c.ValidateDefs (convertedOutput c fs ot ut dir o).Defs = none)
    (hc : c.ValidateDocs (convertedOutput c fs ot ut dir o).Docs = none) :
    NormalizeData c fs ot ut dir o
      = (none, sortedOutput c (convertedOutput c fs ot ut dir o)) := by
  simp [NormalizeData, hr, hd, hc]

/-- The state NormalizeData returns is the converted state (on a validation
error) or its sorted form (on success). -/
theorem normalizeData_snd_cases (c : Collaborators) (fs : FileSystem) (ot : OffsetType)
    (ut dir : String) (o : Output) :
    (NormalizeData c fs ot ut dir o).2 = convertedOutput c fs ot ut dir o ∨
      (NormalizeData c fs ot ut dir o).2
        = sortedOutput c (convertedOutput c fs ot ut dir o) := by
  cases hr : c.ValidateRefs (convertedOutput c fs ot ut dir o).Refs with
  | some e => left; rw [normalizeData_refs_some c fs ot ut dir o e hr]
  | none =>
    cases hd : c.ValidateDefs (convertedOutput c fs ot ut dir o).Defs with
    | some e => left; rw [normalizeData_defs_some c fs ot ut dir o e hr hd]
    | none =>
      cases hc : c.ValidateDocs (convertedOutput c fs ot ut dir o).Docs with
      | some e => left; rw [normalizeData_docs_some c fs ot ut dir o e hr hd hc]
      | none => right; rw [normalizeData_all_none c fs ot ut dir o hr hd hc]

/-- A successful call means all three validators accepted, and the returned
state is the sorted converted state. -/
theorem normalizeData_success_parts (c : Collaborators) (fs : FileSystem) (ot : OffsetType)
    (ut dir : String) (o o2 : Output)
    (h : NormalizeData c fs ot ut dir o = (none, o2)) :
    c.ValidateRefs (convertedOutput c fs ot ut dir o).Refs = none ∧
      c.ValidateDefs (convertedOutput c fs ot ut dir o).Defs = none ∧
      c.ValidateDocs (convertedOutput c fs ot ut dir o).Docs = none ∧
      o2 = sortedOutput c (convertedOutput c fs ot ut dir o) := by
  cases hr : c.ValidateRefs (convertedOutput c fs ot ut dir o).Refs with
  | some e => rw [normalizeData_refs_some c fs ot ut dir o e hr] at h; simp at h
  | none =>
    cases hd : c.ValidateDefs (convertedOutput c fs ot ut dir o).Defs with
    | some e => rw [normalizeData_defs_some c fs ot ut dir o e hr hd] at h; simp at h
    | none =>
      cases hc : c.ValidateDocs (convertedOutput c fs ot ut dir o).Docs with
      | some e => rw [normalizeData_docs_some c fs ot ut dir o e hr hd hc] at h; simp at h
      | none =>
        rw [normalizeData_all_none c fs ot ut dir o hr hd hc] at h
        have h2 := (Prod.mk.injEq _ _ _ _).mp h
        exact ⟨rfl, rfl, rfl, h2.2.symm⟩

end Grapher

namespace Grapher

/-! ### Total orders as Boolean relations

The spec owns no comparator: the sort step imposes a total order owned by
the graph schema collaborator. TotalOrderOn captures what the spec demands
of such a comparator; the concrete orders below witness that lawful
comparators exist and are used to instantiate the theorems. -/

/-- A Boolean relation that is a total order (modelled from the spec: the
deterministic sort step imposes a total order on each collection). -/
structure TotalOrderOn {α : Type u} (le : α → α → Bool) : Prop where
  trans : ∀ a b c, le a b = true → le b c = true → le a c = true
  total : ∀ a b, le a b = true ∨ le b a = true
  antisymm : ∀ a b, le a b = true → le b a = true → a = b

/-- Lexicographic comparison of rune sequences by code point. -/
def charsLe : List Char → List Char → Bool
  | [], _ => true
  | _ :: _, [] => false
  | a :: as, b :: bs => if a = b then charsLe as bs else decide (a.toNat < b.toNat)

theorem char_toNat_inj {a b : Char} (h : a.toNat = b.toNat) : a = b :=
  Char.ext (UInt32.ext h)

theorem charsLe_trans : ∀ as bs cs : List Char,
    charsLe as bs = true → charsLe bs cs = true → charsLe as cs = true := by
  intro as
  induction as with
  | nil => intro bs cs _ _; rfl
  | cons a as ih =>
    intro bs cs hab hbc
    cases bs with
    | nil => simp [charsLe] at hab
    | cons b bs =>
      cases cs with
      | nil => simp [charsLe] at hbc
      | cons c cs =>
        by_cases h1 : a = b
        · subst h1
          by_cases h2 : a = c
          · subst h2
            simp only [charsLe, if_pos rfl] at hab hbc ⊢
            exact ih bs cs hab hbc
          · simp only [charsLe, if_neg h2] at hbc ⊢
            exact hbc
        · by_cases h2 : b = c
          · subst h2
            simp only [charsLe, if_neg h1] at hab ⊢
            exact hab
          · simp only [charsLe, if_neg h1] at hab
            simp only [charsLe, if_neg h2] at hbc
            have hab' := of_decide_eq_true hab
            have hbc' := of_decide_eq_true hbc
            have h3 : a ≠ c := by
              intro he
              subst he
              exact absurd (Nat.lt_trans hab' hbc') (lt_irrefl _)
            simp only [charsLe, if_neg h3]
            exact decide_eq_true (Nat.lt_trans hab' hbc')

theorem charsLe_total : ∀ as bs : List Char, charsLe as bs = true ∨ charsLe bs as = true := by
  intro as
  induction as with
  | nil => intro bs; left; rfl
  | cons a as ih =>
    intro bs
    cases bs with
    | nil => right; rfl
    | cons b bs =>
      by_cases h : a = b
      · subst h
        rcases ih bs with h' | h'
        · left; simpa [charsLe] using h'
        · right; simpa [charsLe] using h'
      · rcases Nat.lt_or_ge a.toNat b.toNat with hlt | hge
        · left
          simp only [charsLe, if_neg h]
          exact decide_eq_true hlt
        · have hne : b.toNat ≠ a.toNat := fun he => h (char_toNat_inj he.symm)
          have hlt : b.toNat < a.toNat := lt_of_le_of_ne hge hne
          right
          simp only [charsLe, if_neg (Ne.symm h)]
          exact decide_eq_true hlt

theorem charsLe_antisymm : ∀ as bs : List Char,
    charsLe as bs = true → charsLe bs as = true → as = bs := by
  intro as
  induction as with
  | nil =>
    intro bs hab hba
    cases bs with
    | nil => rfl
    | cons b bs => simp [charsLe] at hba
  | cons a as ih =>
    intro bs hab hba
    cases bs with
    | nil => simp [charsLe] at hab
    | cons b bs =>
      by_cases h : a = b
      · subst h
        simp only [charsLe, if_pos rfl] at hab hba
        rw [ih bs hab hba]
      · simp only [charsLe, if_neg h] at hab
        simp only [charsLe, if_neg (Ne.symm h)] at hba
        have hab' := of_decide_eq_true hab
        have hba' := of_decide_eq_true hba
        exact absurd (Nat.lt_trans hab' hba') (lt_irrefl _)

/-- Lexicographic comparison of strings by rune content. -/
def strLe (s t : String) : Bool := charsLe s.data t.data

theorem strLe_lawful : TotalOrderOn strLe := by
  constructor
  · intro a b c hab hbc
    exact charsLe_trans a.data b.data c.data hab hbc
  · intro a b
    exact charsLe_total a.data b.data
  · intro a b hab hba
    have h := charsLe_antisymm a.data b.data hab hba
    cases a with
    | mk da =>
      cases b with
      | mk db =>
        simp only [String.data] at h
        rw [h]

/-- Standard comparison of integers. -/
def intLe (a b : Int) : Bool := decide (a ≤ b)

theorem intLe_lawful : TotalOrderOn intLe := by
  constructor
  · intro a b c hab hbc
    simp only [intLe, decide_eq_true_eq] at *
    omega
  · intro a b
    simp only [intLe, decide_eq_true_eq]
    omega
  · intro a b hab hba
    simp only [intLe, decide_eq_true_eq] at *
    omega

/-- Lexicographic product of two comparators, deciding the first component
by equality. -/
def pairLe {α β : Type u} [DecidableEq α] (leA : α → α → Bool) (leB : β → β → Bool)
    (x y : α × β) : Bool :=
  if x.1 = y.1 then leB x.2 y.2 else leA x.1 y.1

theorem pairLe_lawful {α β : Type u} [DecidableEq α] {leA : α → α → Bool}
    {leB : β → β → Bool} (hA : TotalOrderOn leA) (hB : TotalOrderOn leB) :
    TotalOrderOn (pairLe leA leB) := by
  constructor
  · rintro ⟨x1, x2⟩ ⟨y1, y2⟩ ⟨z1, z2⟩ hxy hyz
    simp only [pairLe] at hxy hyz ⊢
    by_cases h1 : x1 = y1
    · subst h1
      by_cases h2 : x1 = z1
      · subst h2
        rw [if_pos rfl] at hxy hyz ⊢
        exact hB.trans _ _ _ hxy hyz
      · rw [if_neg h2] at hyz ⊢
        exact hyz
    · by_cases h2 : y1 = z1
      · subst h2
        rw [if_neg h1] at hxy ⊢
        exact hxy
      · by_cases h3 : x1 = z1
        · subst h3
          rw [if_neg h1] at hxy
          rw [if_neg h2] at hyz
          exact absurd (hA.antisymm _ _ hxy hyz) h1
        · rw [if_neg h1] at hxy
          rw [if_neg h2] at hyz
          rw [if_neg h3]
          exact hA.trans _ _ _ hxy hyz
  · rintro ⟨x1, x2⟩ ⟨y1, y2⟩
    simp only [pairLe]
    by_cases h1 : x1 = y1
    · subst h1
      rw [if_pos rfl, if_pos rfl]
      exact hB.total _ _
    · rw [if_neg h1, if_neg (Ne.symm h1)]
      exact hA.total _ _
  · rintro ⟨x1, x2⟩ ⟨y1, y2⟩ hxy hyx
    simp only [pairLe] at hxy hyx
    by_cases h1 : x1 = y1
    · subst h1
      rw [if_pos rfl] at hxy hyx
      rw [hB.antisymm _ _ hxy hyx]
    · rw [if_neg h1] at hxy
      rw [if_neg (Ne.symm h1)] at hyx
      exact absurd (hA.antisymm _ _ hxy hyx) h1

/-- Pull a comparator back along an injective projection. -/
def byProj {α : Type u} {β : Type v} (f : α → β) (le : β → β → Bool) (a b : α) : Bool :=
  le (f a) (f b)

theorem byProj_lawful {α : Type u} {β : Type v} {f : α → β}
    (hf : ∀ a b, f a = f b → a = b) {le : β → β → Bool} (h : TotalOrderOn le) :
    TotalOrderOn (byProj f le) := by
  constructor
  · intro a b c hab hbc
    exact h.trans _ _ _ hab hbc
  · intro a b
    exact h.total _ _
  · intro a b hab hba
    exact hf _ _ (h.antisymm _ _ hab hba)

end Grapher

namespace Grapher

/-! ### Concrete lawful comparators and collaborator instantiations -/

def defTuple (d : Def) : String × (String × (String × (Int × Int))) :=
  (d.Path, (d.Name, (d.File, (d.DefStart, d.DefEnd))))

def refTuple (r : Ref) : String × (String × (Int × Int)) :=
  (r.DefRepo, (r.File, (r.Start, r.End)))

def docTuple (d : Doc) : String × (Int × Int) :=
  (d.File, (d.Start, d.End))

def annTuple (a : Ann) : String × (Int × Int) :=
  (a.File, (a.Start, a.End))

theorem defTuple_inj : ∀ a b : Def, defTuple a = defTuple b → a = b := by
  intro a b h
  cases a
  cases b
  simp only [defTuple, Prod.mk.injEq] at h
  obtain ⟨h1, h2, h3, h4, h5⟩ := h
  simp_all

theorem refTuple_inj : ∀ a b : Ref, refTuple a = refTuple b → a = b := by
  intro a b h
  cases a
  cases b
  simp only [refTuple, Prod.mk.injEq] at h
  obtain ⟨h1, h2, h3, h4⟩ := h
  simp_all

theorem docTuple_inj : ∀ a b : Doc, docTuple a = docTuple b → a = b := by
  intro a b h
  cases a
  cases b
  simp only [docTuple, Prod.mk.injEq] at h
  obtain ⟨h1, h2, h3⟩ := h
  simp_all

theorem annTuple_inj : ∀ a b : Ann, annTuple a = annTuple b → a = b := by
  intro a b h
  cases a
  cases b
  simp only [annTuple, Prod.mk.injEq] at h
  obtain ⟨h1, h2, h3⟩ := h
  simp_all

/-- A lawful total order on Defs. -/
def defLe0 : Def → Def → Bool :=
  byProj defTuple (pairLe strLe (pairLe strLe (pairLe strLe (pairLe intLe intLe))))

/-- A lawful total order on Refs. -/
def refLe0 : Ref → Ref → Bool :=
  byProj refTuple (pairLe strLe (pairLe strLe (pairLe intLe intLe)))

/-- A lawful total order on Docs. -/
def docLe0 : Doc → Doc → Bool :=
  byProj docTuple (pairLe strLe (pairLe intLe intLe))

/-- A lawful total order on Anns. -/
def annLe0 : Ann → Ann → Bool :=
  byProj annTuple (pairLe strLe (pairLe intLe intLe))

theorem defLe0_lawful : TotalOrderOn defLe0 :=
  byProj_lawful defTuple_inj
    (pairLe_lawful strLe_lawful
      (pairLe_lawful strLe_lawful
        (pairLe_lawful strLe_lawful (pairLe_lawful intLe_lawful intLe_lawful))))

theorem refLe0_lawful : TotalOrderOn refLe0 :=
  byProj_lawful refTuple_inj
    (pairLe_lawful strLe_lawful
      (pairLe_lawful strLe_lawful (pairLe_lawful intLe_lawful intLe_lawful)))

theorem docLe0_lawful : TotalOrderOn docLe0 :=
  byProj_lawful docTuple_inj
    (pairLe_lawful strLe_lawful (pairLe_lawful intLe_lawful intLe_lawful))

theorem annLe0_lawful : TotalOrderOn annLe0 :=
  byProj_lawful annTuple_inj
    (pairLe_lawful strLe_lawful (pairLe_lawful intLe_lawful intLe_lawful))

/-- A collaborator set with the identity canonicalizer (idempotent, as the
spec requires), validators that accept every collection, and the lawful
comparators above. -/
def cAccept : Collaborators :=
  { MakeURI := id
    ValidateRefs := fun _ => none
    ValidateDefs := fun _ => none
    ValidateDocs := fun _ => none
    defLe := defLe0
    refLe := refLe0
    docLe := docLe0
    annLe := annLe0 }

/-! ### Small list helpers -/

theorem map_id_of_mem {α : Type u} {l : List α} {f : α → α}
    (h : ∀ x ∈ l, f x = x) : l.map f = l := by
  induction l with
  | nil => rfl
  | cons a l ih =>
    have ha := h a (List.mem_cons_self a l)
    have hl := ih (fun x hx => h x (List.mem_cons_of_mem a hx))
    simp [ha, hl]

/-- Equality of Outputs from equality of the four collections. -/
theorem outputExt {a b : Output} (h1 : a.Defs = b.Defs) (h2 : a.Refs = b.Refs)
    (h3 : a.Docs = b.Docs) (h4 : a.Anns = b.Anns) : a = b := by
  cases a
  cases b
  simp_all

end Grapher

namespace Grapher

/-! ### Concrete scenarios used by witnesses and counterexamples -/

/-- The cafe file content: c a f e plus a combining acute accent, five code
points and six UTF-8 bytes. -/
def cafeChars : List Char := ['c', 'a', 'f', 'e', '́']

def fsCafe : FileSystem := fun p => if p = "r/cafe.txt" then some cafeChars else none

def defCafe : Def := { Path := "p", Name := "n", File := "cafe.txt", DefStart := 4, DefEnd := 4 }

def outCafe : Output := { Defs := [defCafe], Refs := [], Docs := [], Anns := [] }

/-- A three-rune file whose first rune is two bytes wide. -/
def contentAcc : List Char := ['é', 'a', 'a']

def fsAcc : FileSystem := fun p => if p = "d/f.txt" then some contentAcc else none

/-- A Def whose first offset converts and whose second offset is out of
range for contentAcc. -/
def dPartial : Def := { Path := "pp", Name := "np", File := "f.txt", DefStart := 1, DefEnd := 7 }

/-- A five-rune file whose first rune is two bytes wide, used to show that
re-running the conversion moves an in-range offset again. -/
def fsE : FileSystem := fun p => if p = "d/e.txt" then some ['é', 'a', 'a', 'a', 'a'] else none

def dE : Def := { Path := "pe", Name := "ne", File := "e.txt", DefStart := 1, DefEnd := 1 }

def oE : Output := { Defs := [dE], Refs := [], Docs := [], Anns := [] }

/-- A Def with zero offsets in the cafe file. -/
def dZ : Def := { Path := "pz", Name := "nz", File := "cafe.txt", DefStart := 0, DefEnd := 0 }

def oZ : Output := { Defs := [dZ], Refs := [], Docs := [], Anns := [] }

/-- A Def whose File resolves to no file in fsCafe. -/
def dMiss : Def := { Path := "pm", Name := "nm", File := "ghost.txt", DefStart := 3, DefEnd := 9 }

def oMiss : Output := { Defs := [dMiss], Refs := [], Docs := [], Anns := [] }

/-- A collaborator set whose Ref validator rejects every collection. -/
def cRejectRefs : Collaborators :=
  { cAccept with ValidateRefs := fun _ => some "refs rejected" }

/-! ### C9 -/

/-- C9: in a file holding the UTF-8 sequence for cafe with a combining
accent (five code points, six bytes), a Def with rune-offset range 4 to 4
normalized under OffsetChar ends with DefEnd equal to 6 (and the call
succeeds). -/
theorem cafe_concrete_conversion :
    (NormalizeData cAccept fsCafe OffsetType.OffsetChar "U" "r" outCafe).1 = none ∧
      (NormalizeData cAccept fsCafe OffsetType.OffsetChar "U" "r" outCafe).2.Defs.map Def.DefEnd
        = [6] := by
  decide

/-! ### C2 -/

/-- C2: offset conversion is applied exactly when the offset type is Char,
or it is Unspecified and the unit type is neither GoPackage nor Dockerfile
and does not begin with Java; under OffsetByte the conversion is never
applied, whatever the unit type. -/
theorem conversion_decision (ot : OffsetType) (ut : String) :
    (convertOffsetsFor ot ut = true ↔
      (ot = OffsetType.OffsetChar ∨
        (ot = OffsetType.OffsetUnspecified ∧ ut ≠ "GoPackage" ∧ ut ≠ "Dockerfile" ∧
          hasPrefixStr "Java" ut = false))) ∧
    convertOffsetsFor OffsetType.OffsetByte ut = false := by
  refine ⟨?_, rfl⟩
  cases ot <;>
    simp [convertOffsetsFor, Bool.and_eq_true, bne_iff_ne, Bool.not_eq_true', and_assoc]

end Grapher

namespace Grapher

/-! ### Membership in the returned state -/

theorem normalizeData_mem_defs (c : Collaborators) (fs : FileSystem) (ot : OffsetType)
    (ut dir : String) (o : Output) {d : Def}
    (h : d ∈ (NormalizeData c fs ot ut dir o).2.Defs) :
    d ∈ (convertedOutput c fs ot ut dir o).Defs := by
  rcases normalizeData_snd_cases c fs ot ut dir o with hc | hc
  · rwa [hc] at h
  · rw [hc] at h
    exact (List.mem_insertionSort _).mp h

theorem normalizeData_mem_refs (c : Collaborators) (fs : FileSystem) (ot : OffsetType)
    (ut dir : String) (o : Output) {r : Ref}
    (h : r ∈ (NormalizeData c fs ot ut dir o).2.Refs) :
    r ∈ (convertedOutput c fs ot ut dir o).Refs := by
  rcases normalizeData_snd_cases c fs ot ut dir o with hc | hc
  · rwa [hc] at h
  · rw [hc] at h
    exact (List.mem_insertionSort _).mp h

theorem normalizeData_mem_docs (c : Collaborators) (fs : FileSystem) (ot : OffsetType)
    (ut dir : String) (o : Output) {p : Doc}
    (h : p ∈ (NormalizeData c fs ot ut dir o).2.Docs) :
    p ∈ (convertedOutput c fs ot ut dir o).Docs := by
  rcases normalizeData_snd_cases c fs ot ut dir o with hc | hc
  · rwa [hc] at h
  · rw [hc] at h
    exact (List.mem_insertionSort _).mp h

theorem normalizeData_mem_anns (c : Collaborators) (fs : FileSystem) (ot : OffsetType)
    (ut dir : String) (o : Output) {a : Ann}
    (h : a ∈ (NormalizeData c fs ot ut dir o).2.Anns) :
    a ∈ (convertedOutput c fs ot ut dir o).Anns := by
  rcases normalizeData_snd_cases c fs ot ut dir o with hc | hc
  · rwa [hc] at h
  · rw [hc] at h
    exact (List.mem_insertionSort _).mp h

/-! ### C10 -/

/-- C10: NormalizeData reports an error exactly when one of the three
validators rejects its (already converted) collection; the Anns collection
is converted but never validated, so changing Anns alone never changes the
error outcome. -/
theorem only_validators_error (c : Collaborators) (fs : FileSystem) (ot : OffsetType)
    (ut dir : String) (o : Output) :
    ((NormalizeData c fs ot ut dir o).1 ≠ none ↔
      (c.ValidateRefs (convertedOutput c fs ot ut dir o).Refs ≠ none ∨
        c.ValidateDefs (convertedOutput c fs ot ut dir o).Defs ≠ none ∨
        c.ValidateDocs (convertedOutput c fs ot ut dir o).Docs ≠ none)) ∧
    (∀ anns2 : List Ann,
      (NormalizeData c fs ot ut dir { o with Anns := anns2 }).1
        = (NormalizeData c fs ot ut dir o).1) := by
  constructor
  · cases hr : c.ValidateRefs (convertedOutput c fs ot ut dir o).Refs with
    | some e => rw [normalizeData_refs_some c fs ot ut dir o e hr]; simp
    | none =>
      cases hd : c.ValidateDefs (convertedOutput c fs ot ut dir o).Defs with
      | some e => rw [normalizeData_defs_some c fs ot ut dir o e hr hd]; simp
      | none =>
        cases hc : c.ValidateDocs (convertedOutput c fs ot ut dir o).Docs with
        | some e => rw [normalizeData_docs_some c fs ot ut dir o e hr hd hc]; simp
        | none => rw [normalizeData_all_none c fs ot ut dir o hr hd hc]; simp
  · intro anns2
    obtain ⟨h1, h2, h3⟩ := convertedOutput_anns_independent c fs ot ut dir o anns2
    cases hr : c.ValidateRefs (convertedOutput c fs ot ut dir o).Refs with
    | some e =>
      have hr' : c.ValidateRefs
          (convertedOutput c fs ot ut dir { o with Anns := anns2 }).Refs = some e := by
        rw [h2, hr]
      rw [normalizeData_refs_some c fs ot ut dir o e hr,
        normalizeData_refs_some c fs ot ut dir _ e hr']
    | none =>
      have hr' : c.ValidateRefs
          (convertedOutput c fs ot ut dir { o with Anns := anns2 }).Refs = none := by
        rw [h2, hr]
      cases hd : c.ValidateDefs (convertedOutput c fs ot ut dir o).Defs with
      | some e =>
        have hd' : c.ValidateDefs
            (convertedOutput c fs ot ut dir { o with Anns := anns2 }).Defs = some e := by
          rw [h1, hd]
        rw [normalizeData_defs_some c fs ot ut dir o e hr hd,
          normalizeData_defs_some c fs ot ut dir _ e hr' hd']
      | none =>
        have hd' : c.ValidateDefs
            (convertedOutput c fs ot ut dir { o with Anns := anns2 }).Defs = none := by
          rw [h1, hd]
        cases hc : c.ValidateDocs (convertedOutput c fs ot ut dir o).Docs with
        | some e =>
          have hc' : c.ValidateDocs
              (convertedOutput c fs ot ut dir { o with Anns := anns2 }).Docs = some e := by
            rw [h3, hc]
          rw [normalizeData_docs_some c fs ot ut dir o e hr hd hc,
            normalizeData_docs_some c fs ot ut dir _ e hr' hd' hc']
        | none =>
          have hc' : c.ValidateDocs
              (convertedOutput c fs ot ut dir { o with Anns := anns2 }).Docs = none := by
            rw [h3, hc]
          rw [normalizeData_all_none c fs ot ut dir o hr hd hc,
            normalizeData_all_none c fs ot ut dir _ hr' hd' hc']

end Grapher

namespace Grapher

/-! ### C3 -/

/-- C3: up to the permutation performed by the sort step, the returned
collections are exactly the input collections transformed record by
record (the DefRepo rewrite for Refs, then the conditional offset
conversion), and that per-record transform keeps the File field and never
changes an offset field holding 0, for every offset type, unit type and
directory. -/
theorem zero_offset_invariance (c : Collaborators) (fs : FileSystem) (ot : OffsetType)
    (ut dir : String) (o : Output) :
    (NormalizeData c fs ot ut dir o).2.Defs.Perm
        (o.Defs.map (fun d => if convertOffsetsFor ot ut then fixDef fs dir d else d)) ∧
    (NormalizeData c fs ot ut dir o).2.Refs.Perm
        (o.Refs.map (fun r =>
          if convertOffsetsFor ot ut then fixRef fs dir (rewriteRef c r)
          else rewriteRef c r)) ∧
    (NormalizeData c fs ot ut dir o).2.Docs.Perm
        (o.Docs.map (fun p => if convertOffsetsFor ot ut then fixDoc fs dir p else p)) ∧
    (NormalizeData c fs ot ut dir o).2.Anns.Perm
        (o.Anns.map (fun a => if convertOffsetsFor ot ut then fixAnn fs dir a else a)) ∧
    (∀ d : Def,
      (if convertOffsetsFor ot ut then fixDef fs dir d else d).File = d.File ∧
      (d.DefStart = 0 →
        (if convertOffsetsFor ot ut then fixDef fs dir d else d).DefStart = 0) ∧
      (d.DefEnd = 0 →
        (if convertOffsetsFor ot ut then fixDef fs dir d else d).DefEnd = 0)) ∧
    (∀ r : Ref,
      (if convertOffsetsFor ot ut then fixRef fs dir (rewriteRef c r)
        else rewriteRef c r).File = r.File ∧
      (r.Start = 0 →
        (if convertOffsetsFor ot ut then fixRef fs dir (rewriteRef c r)
          else rewriteRef c r).Start = 0) ∧
      (r.End = 0 →
        (if convertOffsetsFor ot ut then fixRef fs dir (rewriteRef c r)
          else rewriteRef c r).End = 0)) ∧
    (∀ p : Doc,
      (if convertOffsetsFor ot ut then fixDoc fs dir p else p).File = p.File ∧
      (p.Start = 0 → (if convertOffsetsFor ot ut then fixDoc fs dir p else p).Start = 0) ∧
      (p.End = 0 → (if convertOffsetsFor ot ut then fixDoc fs dir p else p).End = 0)) ∧
    (∀ a : Ann,
      (if convertOffsetsFor ot ut then fixAnn fs dir a else a).File = a.File ∧
      (a.Start = 0 → (if convertOffsetsFor ot ut then fixAnn fs dir a else a).Start = 0) ∧
      (a.End = 0 → (if convertOffsetsFor ot ut then fixAnn fs dir a else a).End = 0)) := by
  have hcoD : (convertedOutput c fs ot ut dir o).Defs
      = o.Defs.map (fun d => if convertOffsetsFor ot ut then fixDef fs dir d else d) := by
    rw [convertedOutput_Defs]
    cases hcv : convertOffsetsFor ot ut <;> simp
  have hcoR : (convertedOutput c fs ot ut dir o).Refs
      = o.Refs.map (fun r =>
          if convertOffsetsFor ot ut then fixRef fs dir (rewriteRef c r)
          else rewriteRef c r) := by
    rw [convertedOutput_Refs]
    unfold rewriteDefRepos
    cases hcv : convertOffsetsFor ot ut <;> simp [List.map_map, Function.comp]
  have hcoC : (convertedOutput c fs ot ut dir o).Docs
      = o.Docs.map (fun p => if convertOffsetsFor ot ut then fixDoc fs dir p else p) := by
    rw [convertedOutput_Docs]
    cases hcv : convertOffsetsFor ot ut <;> simp
  have hcoA : (convertedOutput c fs ot ut dir o).Anns
      = o.Anns.map (fun a => if convertOffsetsFor ot ut then fixAnn fs dir a else a) := by
    rw [convertedOutput_Anns]
    cases hcv : convertOffsetsFor ot ut <;> simp
  have hpD : (NormalizeData c fs ot ut dir o).2.Defs.Perm
      (convertedOutput c fs ot ut dir o).Defs := by
    rcases normalizeData_snd_cases c fs ot ut dir o with h | h
    · rw [h]
    · rw [h]
      exact List.perm_insertionSort _ _
  have hpR : (NormalizeData c fs ot ut dir o).2.Refs.Perm
      (convertedOutput c fs ot ut dir o).Refs := by
    rcases normalizeData_snd_cases c fs ot ut dir o with h | h
    · rw [h]
    · rw [h]
      exact List.perm_insertionSort _ _
  have hpC : (NormalizeData c fs ot ut dir o).2.Docs.Perm
      (convertedOutput c fs ot ut dir o).Docs := by
    rcases normalizeData_snd_cases c fs ot ut dir o with h | h
    · rw [h]
    · rw [h]
      exact List.perm_insertionSort _ _
  have hpA : (NormalizeData c fs ot ut dir o).2.Anns.Perm
      (convertedOutput c fs ot ut dir o).Anns := by
    rcases normalizeData_snd_cases c fs ot ut dir o with h | h
    · rw [h]
    · rw [h]
      exact List.perm_insertionSort _ _
  refine ⟨?_, ?_, ?_, ?_, ?_, ?_, ?_, ?_⟩
  · rw [← hcoD]
    exact hpD
  · rw [← hcoR]
    exact hpR
  · rw [← hcoC]
    exact hpC
  · rw [← hcoA]
    exact hpA
  · intro d
    cases hcv : convertOffsetsFor ot ut with
    | true =>
      refine ⟨?_, fun hz => ?_, fun hz => ?_⟩ <;> rw [if_pos rfl]
      · exact fixDef_File fs dir d
      · exact fixDef_zero_start fs dir d hz
      · exact fixDef_zero_end fs dir d hz
    | false =>
      refine ⟨?_, fun hz => ?_, fun hz => ?_⟩ <;> rw [if_neg Bool.false_ne_true]
      · exact hz
      · exact hz
  · intro r
    cases hcv : convertOffsetsFor ot ut with
    | true =>
      refine ⟨?_, fun hz => ?_, fun hz => ?_⟩ <;> rw [if_pos rfl]
      · rw [fixRef_File, rewriteRef_File]
      · exact fixRef_zero_start fs dir _ ((rewriteRef_Start c r).trans hz)
      · exact fixRef_zero_end fs dir _ ((rewriteRef_End c r).trans hz)
    | false =>
      refine ⟨?_, fun hz => ?_, fun hz => ?_⟩ <;> rw [if_neg Bool.false_ne_true]
      · exact rewriteRef_File c r
      · exact (rewriteRef_Start c r).trans hz
      · exact (rewriteRef_End c r).trans hz
  · intro p
    cases hcv : convertOffsetsFor ot ut with
    | true =>
      refine ⟨?_, fun hz => ?_, fun hz => ?_⟩ <;> rw [if_pos rfl]
      · exact fixDoc_File fs dir p
      · exact fixDoc_zero_start fs dir p hz
      · exact fixDoc_zero_end fs dir p hz
    | false =>
      refine ⟨?_, fun hz => ?_, fun hz => ?_⟩ <;> rw [if_neg Bool.false_ne_true]
      · exact hz
      · exact hz
  · intro a
    cases hcv : convertOffsetsFor ot ut with
    | true =>
      refine ⟨?_, fun hz => ?_, fun hz => ?_⟩ <;> rw [if_pos rfl]
      · exact fixAnn_File fs dir a
      · exact fixAnn_zero_start fs dir a hz
      · exact fixAnn_zero_end fs dir a hz
    | false =>
      refine ⟨?_, fun hz => ?_, fun hz => ?_⟩ <;> rw [if_neg Bool.false_ne_true]
      · exact hz
      · exact hz

/-- Witness for C3: in the cafe scenario the per-record transform applied
by the pipeline leaves both zero offset fields of the zero-offset Def at
0, and the returned Defs collection is the per-record image of the input
collection. -/
theorem zero_offset_invariance_witness :
    (NormalizeData cAccept fsCafe OffsetType.OffsetChar "U" "r" oZ).2.Defs.Perm
        (oZ.Defs.map (fun d =>
          if convertOffsetsFor OffsetType.OffsetChar "U" then fixDef fsCafe "r" d else d)) ∧
    (if convertOffsetsFor OffsetType.OffsetChar "U" then fixDef fsCafe "r" dZ
      else dZ).DefStart = 0 ∧
    (if convertOffsetsFor OffsetType.OffsetChar "U" then fixDef fsCafe "r" dZ
      else dZ).DefEnd = 0 := by
  have h := zero_offset_invariance cAccept fsCafe OffsetType.OffsetChar "U" "r" oZ
  exact ⟨h.1, (h.2.2.2.2.1 dZ).2.1 rfl, (h.2.2.2.2.1 dZ).2.2 rfl⟩

end Grapher

namespace Grapher

/-! ### C5 -/

theorem fix_noop_of_missing (fs : FileSystem) (dir filename : String) (o1 o2 : Int)
    (h : filename = "" ∨ fs (filepathJoin dir filename) = none) :
    fix fs dir filename o1 o2 = (o1, o2) := by
  rcases h with h | h
  · subst h
    exact fix_file_empty fs dir o1 o2
  · exact fix_fs_none fs dir filename o1 o2 h

/-- C5: a record whose File is empty or resolves to no readable regular
file is left untouched by the conversion, and NormalizeData still succeeds
when the validators accept the converted collections. -/
theorem missing_file_tolerance (c : Collaborators) (fs : FileSystem) (ot : OffsetType)
    (ut dir : String) (o : Output) :
    (∀ d : Def, (d.File = "" ∨ fs (filepathJoin dir d.File) = none) →
      fixDef fs dir d = d) ∧
    (∀ r : Ref, (r.File = "" ∨ fs (filepathJoin dir r.File) = none) →
      fixRef fs dir r = r) ∧
    (∀ p : Doc, (p.File = "" ∨ fs (filepathJoin dir p.File) = none) →
      fixDoc fs dir p = p) ∧
    (∀ a : Ann, (a.File = "" ∨ fs (filepathJoin dir a.File) = none) →
      fixAnn fs dir a = a) ∧
    (c.ValidateRefs (convertedOutput c fs ot ut dir o).Refs = none →
      c.ValidateDefs (convertedOutput c fs ot ut dir o).Defs = none →
      c.ValidateDocs (convertedOutput c fs ot ut dir o).Docs = none →
      (NormalizeData c fs ot ut dir o).1 = none) := by
  refine ⟨?_, ?_, ?_, ?_, ?_⟩
  · intro d h
    have hf := fix_noop_of_missing fs dir d.File d.DefStart d.DefEnd h
    cases d
    simp only [fixDef, hf]
  · intro r h
    have hf := fix_noop_of_missing fs dir r.File r.Start r.End h
    cases r
    simp only [fixRef, hf]
  · intro p h
    have hf := fix_noop_of_missing fs dir p.File p.Start p.End h
    cases p
    simp only [fixDoc, hf]
  · intro a h
    have hf := fix_noop_of_missing fs dir a.File a.Start a.End h
    cases a
    simp only [fixAnn, hf]
  · intro h1 h2 h3
    rw [normalizeData_all_none c fs ot ut dir o h1 h2 h3]

/-- Witness for C5: a Def pointing at a nonexistent file keeps its offsets
and the call succeeds. -/
theorem missing_file_tolerance_witness :
    fixDef fsCafe "r" dMiss = dMiss ∧
      (NormalizeData cAccept fsCafe OffsetType.OffsetChar "U" "r" oMiss).1 = none := by
  have h := missing_file_tolerance cAccept fsCafe OffsetType.OffsetChar "U" "r" oMiss
  exact ⟨h.1 dMiss (Or.inr (by decide)), h.2.2.2.2 rfl rfl rfl⟩

/-! ### C6 -/

/-- C6: the Ref validator runs first, then the Def validator, then the Doc
validator, each over the already converted collections; the first error is
returned at once and the returned state is then the unsorted converted
state, while full acceptance leads to the sorted state. -/
theorem validation_order_fail_fast (c : Collaborators) (fs : FileSystem) (ot : OffsetType)
    (ut dir : String) (o : Output) (e : String) :
    (c.ValidateRefs (convertedOutput c fs ot ut dir o).Refs = some e →
      NormalizeData c fs ot ut dir o = (some e, convertedOutput c fs ot ut dir o)) ∧
    (c.ValidateRefs (convertedOutput c fs ot ut dir o).Refs = none →
      c.ValidateDefs (convertedOutput c fs ot ut dir o).Defs = some e →
      NormalizeData c fs ot ut dir o = (some e, convertedOutput c fs ot ut dir o)) ∧
    (c.ValidateRefs (convertedOutput c fs ot ut dir o).Refs = none →
      c.ValidateDefs (convertedOutput c fs ot ut dir o).Defs = none →
      c.ValidateDocs (convertedOutput c fs ot ut dir o).Docs = some e →
      NormalizeData c fs ot ut dir o = (some e, convertedOutput c fs ot ut dir o)) ∧
    (c.ValidateRefs (convertedOutput c fs ot ut dir o).Refs = none →
      c.ValidateDefs (convertedOutput c fs ot ut dir o).Defs = none →
      c.ValidateDocs (convertedOutput c fs ot ut dir o).Docs = none →
      NormalizeData c fs ot ut dir o
        = (none, sortedOutput c (convertedOutput c fs ot ut dir o))) :=
  ⟨normalizeData_refs_some c fs ot ut dir o e,
    normalizeData_defs_some c fs ot ut dir o e,
    normalizeData_docs_some c fs ot ut dir o e,
    normalizeData_all_none c fs ot ut dir o⟩

/-- Witness for C6: a rejecting Ref validator aborts the call with its
error and the unsorted converted state. -/
theorem validation_order_fail_fast_witness :
    NormalizeData cRejectRefs fsCafe OffsetType.OffsetChar "U" "r" outCafe
      = (some "refs rejected",
          convertedOutput cRejectRefs fsCafe OffsetType.OffsetChar "U" "r" outCafe) :=
  (validation_order_fail_fast cRejectRefs fsCafe OffsetType.OffsetChar "U" "r" outCafe
    "refs rejected").1 rfl

/-! ### C4 -/

/-- C4 counterexample: a record whose conversion fails on its second offset
field does not keep all its offset fields at their pre-call values; the
first field was already converted when the failure hit. -/
theorem record_atomicity_counterexample :
    fixOffset contentAcc dPartial.DefEnd = none ∧ fixDef fsAcc "d" dPartial ≠ dPartial := by
  decide

/-- C4 amended: when conversion of a record fails at an offset field, that
field and the fields after it keep their pre-call values, fields already
converted keep their converted values, and the remaining records of the
collection are still processed. -/
theorem record_failure_granularity (fs : FileSystem) (dir filename : String)
    (content : List Char) (o1 o2 : Int) (hne : filename ≠ "")
    (hfs : fs (filepathJoin dir filename) = some content) :
    (fixOffset content o1 = none → fix fs dir filename o1 o2 = (o1, o2)) ∧
    (∀ b1, fixOffset content o1 = some b1 → fixOffset content o2 = none →
      fix fs dir filename o1 o2 = (b1, o2)) ∧
    (∀ (o : Output) (d : Def), d ∈ o.Defs →
      fixDef fs dir d ∈ (ensureOffsetsAreByteOffsets fs dir o).Defs ∧
        (ensureOffsetsAreByteOffsets fs dir o).Defs.length = o.Defs.length) := by
  refine ⟨?_, ?_, ?_⟩
  · intro h
    rw [fix_fs_some fs dir filename content o1 o2 hne hfs, h]
  · intro b1 h1 h2
    rw [fix_fs_some fs dir filename content o1 o2 hne hfs, h1, h2]
  · intro o d hd
    exact ⟨List.mem_map_of_mem _ hd, by simp [ensureOffsetsAreByteOffsets]⟩

/-- Witness for C4 amended: in the concrete partial-failure scenario the
first offset is converted to 3, the failing second offset stays 7, and the
record is still processed within its collection. -/
theorem record_failure_granularity_witness :
    fix fsAcc "d" "f.txt" 1 7 = (3, 7) ∧
      fixDef fsAcc "d" dPartial
        ∈ (ensureOffsetsAreByteOffsets fsAcc "d"
            { Defs := [dPartial], Refs := [], Docs := [], Anns := [] }).Defs := by
  have h := record_failure_granularity fsAcc "d" "f.txt" contentAcc 1 7 (by decide) (by decide)
  exact ⟨h.2.1 3 (by decide) (by decide),
    (h.2.2 { Defs := [dPartial], Refs := [], Docs := [], Anns := [] } dPartial (by decide)).1⟩

end Grapher

namespace Grapher

/-! ### C1 -/

/-- C1: with conversion enabled, a record whose conversion fails (its first
offset lookup is out of range) is left unchanged yet still present in the
result, every record whose lookups succeed is converted to the position
index values and present in the result, and the call as a whole reports no
error when the validators accept the converted collections. -/
theorem failure_isolation (c : Collaborators) (fs : FileSystem) (ut dir : String)
    (o : Output) (bad : Def) (contentB : List Char)
    (hmem : bad ∈ o.Defs)
    (hfile : bad.File ≠ "")
    (hfs : fs (filepathJoin dir bad.File) = some contentB)
    (hfail : fixOffset contentB bad.DefStart = none)
    (hvr : c.ValidateRefs (convertedOutput c fs OffsetType.OffsetChar ut dir o).Refs = none)
    (hvd : c.ValidateDefs (convertedOutput c fs OffsetType.OffsetChar ut dir o).Defs = none)
    (hvc : c.ValidateDocs (convertedOutput c fs OffsetType.OffsetChar ut dir o).Docs = none) :
    fixDef fs dir bad = bad ∧
    bad ∈ (NormalizeData c fs OffsetType.OffsetChar ut dir o).2.Defs ∧
    (∀ (d : Def) (content : List Char) (b1 b2 : Int), d ∈ o.Defs → d.File ≠ "" →
      fs (filepathJoin dir d.File) = some content →
      fixOffset content d.DefStart = some b1 → fixOffset content d.DefEnd = some b2 →
      fixDef fs dir d = { d with DefStart := b1, DefEnd := b2 } ∧
        { d with DefStart := b1, DefEnd := b2 }
          ∈ (NormalizeData c fs OffsetType.OffsetChar ut dir o).2.Defs) ∧
    (NormalizeData c fs OffsetType.OffsetChar ut dir o).1 = none := by
  have hconv : convertOffsetsFor OffsetType.OffsetChar ut = true := rfl
  have hcoDefs : (convertedOutput c fs OffsetType.OffsetChar ut dir o).Defs
      = o.Defs.map (fixDef fs dir) := by
    rw [convertedOutput_Defs, hconv, if_pos rfl]
  have hnorm := normalizeData_all_none c fs OffsetType.OffsetChar ut dir o hvr hvd hvc
  have hbadfix : fixDef fs dir bad = bad := by
    have hfx : fix fs dir bad.File bad.DefStart bad.DefEnd = (bad.DefStart, bad.DefEnd) := by
      rw [fix_fs_some fs dir bad.File contentB bad.DefStart bad.DefEnd hfile hfs, hfail]
    cases bad
    simp only [fixDef, hfx]
  refine ⟨hbadfix, ?_, ?_, ?_⟩
  · rw [hnorm]
    refine (List.mem_insertionSort _).mpr ?_
    rw [hcoDefs]
    have hm := List.mem_map_of_mem (fixDef fs dir) hmem
    rwa [hbadfix] at hm
  · intro d content b1 b2 hdmem hdfile hdfs h1 h2
    have hfx : fix fs dir d.File d.DefStart d.DefEnd = (b1, b2) := by
      rw [fix_fs_some fs dir d.File content d.DefStart d.DefEnd hdfile hdfs, h1, h2]
    have hdfix : fixDef fs dir d = { d with DefStart := b1, DefEnd := b2 } := by
      cases d
      simp only [fixDef, hfx]
    refine ⟨hdfix, ?_⟩
    rw [hnorm]
    refine (List.mem_insertionSort _).mpr ?_
    rw [hcoDefs]
    have hm := List.mem_map_of_mem (fixDef fs dir) hdmem
    rwa [hdfix] at hm
  · rw [hnorm]

/-- A valid Def sharing the file of the failing one in the isolation
scenario. -/
def goodI : Def := { Path := "pg", Name := "ng", File := "f.txt", DefStart := 1, DefEnd := 2 }

/-- A Def whose offsets are both beyond the three runes of contentAcc. -/
def badI : Def := { Path := "pb", Name := "nb", File := "f.txt", DefStart := 10, DefEnd := 11 }

def oI : Output := { Defs := [goodI, badI], Refs := [], Docs := [], Anns := [] }

/-- Witness for C1: in the two-Def scenario on one file the failing Def is
unchanged and kept, the valid Def is converted (1 to 3, 2 to 4) and kept,
and the call succeeds. -/
theorem failure_isolation_witness :
    fixDef fsAcc "d" badI = badI ∧
    badI ∈ (NormalizeData cAccept fsAcc OffsetType.OffsetChar "U" "d" oI).2.Defs ∧
    fixDef fsAcc "d" goodI = { goodI with DefStart := 3, DefEnd := 4 } ∧
    { goodI with DefStart := 3, DefEnd := 4 }
      ∈ (NormalizeData cAccept fsAcc OffsetType.OffsetChar "U" "d" oI).2.Defs ∧
    (NormalizeData cAccept fsAcc OffsetType.OffsetChar "U" "d" oI).1 = none := by
  have h := failure_isolation cAccept fsAcc "U" "d" oI badI contentAcc (by decide) (by decide)
    (by decide) (by decide) rfl rfl rfl
  have hg := h.2.2.1 goodI contentAcc 3 4 (by decide) (by decide) (by decide) (by decide)
    (by decide)
  exact ⟨h.1, h.2.1, hg.1, hg.2, h.2.2.2⟩

end Grapher

namespace Grapher

/-! ### C7 -/

/-- C7 counterexample: the Output produced by a successful OffsetChar
normalization of oE is changed again by a second identical call, because
the conversion maps the already-converted in-range offset once more
(1 becomes 3 on the first pass and 3 becomes 5 on the second). -/
theorem idempotence_counterexample :
    (NormalizeData cAccept fsE OffsetType.OffsetChar "U" "d" oE).1 = none ∧
    (NormalizeData cAccept fsE OffsetType.OffsetChar "U" "d"
        (NormalizeData cAccept fsE OffsetType.OffsetChar "U" "d" oE).2).2
      ≠ (NormalizeData cAccept fsE OffsetType.OffsetChar "U" "d" oE).2 := by
  decide

/-- Rewriting a DefRepo twice equals rewriting it once when the URI
canonicalizer is idempotent. -/
theorem rewriteRef_idem (c : Collaborators)
    (huri : ∀ s, c.MakeURI (c.MakeURI s) = c.MakeURI s) (r : Ref) :
    rewriteRef c (rewriteRef c r) = rewriteRef c r := by
  by_cases h : r.DefRepo = ""
  · simp [rewriteRef, h]
  · by_cases h2 : c.MakeURI r.DefRepo = ""
    · simp [rewriteRef, h, h2]
    · simp [rewriteRef, h, h2, huri r.DefRepo]

/-- C7 amended: normalization is idempotent on its successful result
provided the call applies no offset conversion (offset type Byte, or
Unspecified with an excluded unit type), the URI canonicalizer is
idempotent, the validators do not distinguish permuted collections they
accept, and the comparators are total orders. -/
theorem idempotence_without_conversion (c : Collaborators) (fs : FileSystem)
    (ot : OffsetType) (ut dir : String) (o o2 : Output)
    (hconv : convertOffsetsFor ot ut = false)
    (huri : ∀ s, c.MakeURI (c.MakeURI s) = c.MakeURI s)
    (hvr : ∀ l l' : List Ref, l.Perm l' → c.ValidateRefs l = none → c.ValidateRefs l' = none)
    (hvd : ∀ l l' : List Def, l.Perm l' → c.ValidateDefs l = none → c.ValidateDefs l' = none)
    (hvc : ∀ l l' : List Doc, l.Perm l' → c.ValidateDocs l = none → c.ValidateDocs l' = none)
    (hdt : TotalOrderOn c.defLe) (hrt : TotalOrderOn c.refLe)
    (hct : TotalOrderOn c.docLe) (hat : TotalOrderOn c.annLe)
    (hsucc : NormalizeData c fs ot ut dir o = (none, o2)) :
    NormalizeData c fs ot ut dir o2 = (none, o2) := by
  obtain ⟨h1, h2, h3, h4⟩ := normalizeData_success_parts c fs ot ut dir o o2 hsucc
  haveI : IsTotal Def (fun a b => c.defLe a b = true) := ⟨hdt.total⟩
  haveI : IsTrans Def (fun a b => c.defLe a b = true) := ⟨fun a b c' => hdt.trans a b c'⟩
  haveI : IsTotal Ref (fun a b => c.refLe a b = true) := ⟨hrt.total⟩
  haveI : IsTrans Ref (fun a b => c.refLe a b = true) := ⟨fun a b c' => hrt.trans a b c'⟩
  haveI : IsTotal Doc (fun a b => c.docLe a b = true) := ⟨hct.total⟩
  haveI : IsTrans Doc (fun a b => c.docLe a b = true) := ⟨fun a b c' => hct.trans a b c'⟩
  haveI : IsTotal Ann (fun a b => c.annLe a b = true) := ⟨hat.total⟩
  haveI : IsTrans Ann (fun a b => c.annLe a b = true) := ⟨fun a b c' => hat.trans a b c'⟩
  have hcoRefs : (convertedOutput c fs ot ut dir o).Refs = rewriteDefRepos c o.Refs := by
    rw [convertedOutput_Refs, hconv, if_neg Bool.false_ne_true]
  have ho2Defs : o2.Defs
      = List.insertionSort (fun a b => c.defLe a b = true)
          (convertedOutput c fs ot ut dir o).Defs := by
    rw [h4]; rfl
  have ho2Refs : o2.Refs
      = List.insertionSort (fun a b => c.refLe a b = true)
          (convertedOutput c fs ot ut dir o).Refs := by
    rw [h4]; rfl
  have ho2Docs : o2.Docs
      = List.insertionSort (fun a b => c.docLe a b = true)
          (convertedOutput c fs ot ut dir o).Docs := by
    rw [h4]; rfl
  have ho2Anns : o2.Anns
      = List.insertionSort (fun a b => c.annLe a b = true)
          (convertedOutput c fs ot ut dir o).Anns := by
    rw [h4]; rfl
  have hpermDefs : o2.Defs.Perm (convertedOutput c fs ot ut dir o).Defs := by
    rw [ho2Defs]; exact List.perm_insertionSort _ _
  have hpermRefs : o2.Refs.Perm (convertedOutput c fs ot ut dir o).Refs := by
    rw [ho2Refs]; exact List.perm_insertionSort _ _
  have hpermDocs : o2.Docs.Perm (convertedOutput c fs ot ut dir o).Docs := by
    rw [ho2Docs]; exact List.perm_insertionSort _ _
  have hsortedDefs : List.Sorted (fun a b => c.defLe a b = true) o2.Defs := by
    rw [ho2Defs]; exact List.sorted_insertionSort _ _
  have hsortedRefs : List.Sorted (fun a b => c.refLe a b = true) o2.Refs := by
    rw [ho2Refs]; exact List.sorted_insertionSort _ _
  have hsortedDocs : List.Sorted (fun a b => c.docLe a b = true) o2.Docs := by
    rw [ho2Docs]; exact List.sorted_insertionSort _ _
  have hsortedAnns : List.Sorted (fun a b => c.annLe a b = true) o2.Anns := by
    rw [ho2Anns]; exact List.sorted_insertionSort _ _
  have hrewrite : rewriteDefRepos c o2.Refs = o2.Refs := by
    apply map_id_of_mem
    intro r hrm
    have hrco : r ∈ (convertedOutput c fs ot ut dir o).Refs := hpermRefs.mem_iff.mp hrm
    rw [hcoRefs] at hrco
    obtain ⟨r0, _, hre⟩ := List.mem_map.mp hrco
    rw [← hre]
    exact rewriteRef_idem c huri r0
  have hco2 : convertedOutput c fs ot ut dir o2 = o2 := by
    apply outputExt
    · rw [convertedOutput_Defs, hconv, if_neg Bool.false_ne_true]
    · rw [convertedOutput_Refs, hconv, if_neg Bool.false_ne_true]
      exact hrewrite
    · rw [convertedOutput_Docs, hconv, if_neg Bool.false_ne_true]
    · rw [convertedOutput_Anns, hconv, if_neg Bool.false_ne_true]
  have hr' : c.ValidateRefs (convertedOutput c fs ot ut dir o2).Refs = none := by
    rw [hco2]
    exact hvr _ _ hpermRefs.symm h1
  have hd' : c.ValidateDefs (convertedOutput c fs ot ut dir o2).Defs = none := by
    rw [hco2]
    exact hvd _ _ hpermDefs.symm h2
  have hc' : c.ValidateDocs (convertedOutput c fs ot ut dir o2).Docs = none := by
    rw [hco2]
    exact hvc _ _ hpermDocs.symm h3
  rw [normalizeData_all_none c fs ot ut dir o2 hr' hd' hc', hco2]
  have hsort : sortedOutput c o2 = o2 := by
    apply outputExt
    · exact List.Sorted.insertionSort_eq hsortedDefs
    · exact List.Sorted.insertionSort_eq hsortedRefs
    · exact List.Sorted.insertionSort_eq hsortedDocs
    · exact List.Sorted.insertionSort_eq hsortedAnns
  rw [hsort]

/-- Witness for C7 amended: a Byte-typed normalization of oE is idempotent
on its result. -/
theorem idempotence_without_conversion_witness :
    NormalizeData cAccept fsE OffsetType.OffsetByte "U" "d"
        (NormalizeData cAccept fsE OffsetType.OffsetByte "U" "d" oE).2
      = (none, (NormalizeData cAccept fsE OffsetType.OffsetByte "U" "d" oE).2) :=
  idempotence_without_conversion cAccept fsE OffsetType.OffsetByte "U" "d" oE
    (NormalizeData cAccept fsE OffsetType.OffsetByte "U" "d" oE).2 rfl (fun _ => rfl)
    (fun _ _ _ _ => rfl) (fun _ _ _ _ => rfl) (fun _ _ _ _ => rfl)
    defLe0_lawful refLe0_lawful docLe0_lawful annLe0_lawful (by decide)

end Grapher

namespace Grapher

/-! ### C8 -/

/-- C8: two Outputs holding the same records in different initial orders
normalize, when both calls succeed and the comparators are total orders,
to results whose four collections are identical, element for element. -/
theorem ordering_determinism (c : Collaborators) (fs : FileSystem) (ot : OffsetType)
    (ut dir : String) (oA oB rA rB : Output)
    (hdt : TotalOrderOn c.defLe) (hrt : TotalOrderOn c.refLe)
    (hct : TotalOrderOn c.docLe) (hat : TotalOrderOn c.annLe)
    (hpd : oA.Defs.Perm oB.Defs) (hpr : oA.Refs.Perm oB.Refs)
    (hpc : oA.Docs.Perm oB.Docs) (hpa : oA.Anns.Perm oB.Anns)
    (hA : NormalizeData c fs ot ut dir oA = (none, rA))
    (hB : NormalizeData c fs ot ut dir oB = (none, rB)) :
    rA = rB := by
  obtain ⟨-, -, -, h4A⟩ := normalizeData_success_parts c fs ot ut dir oA rA hA
  obtain ⟨-, -, -, h4B⟩ := normalizeData_success_parts c fs ot ut dir oB rB hB
  haveI : IsTotal Def (fun a b => c.defLe a b = true) := ⟨hdt.total⟩
  haveI : IsTrans Def (fun a b => c.defLe a b = true) := ⟨fun a b c' => hdt.trans a b c'⟩
  haveI : IsAntisymm Def (fun a b => c.defLe a b = true) := ⟨hdt.antisymm⟩
  haveI : IsTotal Ref (fun a b => c.refLe a b = true) := ⟨hrt.total⟩
  haveI : IsTrans Ref (fun a b => c.refLe a b = true) := ⟨fun a b c' => hrt.trans a b c'⟩
  haveI : IsAntisymm Ref (fun a b => c.refLe a b = true) := ⟨hrt.antisymm⟩
  haveI : IsTotal Doc (fun a b => c.docLe a b = true) := ⟨hct.total⟩
  haveI : IsTrans Doc (fun a b => c.docLe a b = true) := ⟨fun a b c' => hct.trans a b c'⟩
  haveI : IsAntisymm Doc (fun a b => c.docLe a b = true) := ⟨hct.antisymm⟩
  haveI : IsTotal Ann (fun a b => c.annLe a b = true) := ⟨hat.total⟩
  haveI : IsTrans Ann (fun a b => c.annLe a b = true) := ⟨fun a b c' => hat.trans a b c'⟩
  haveI : IsAntisymm Ann (fun a b => c.annLe a b = true) := ⟨hat.antisymm⟩
  have hcd : (convertedOutput c fs ot ut dir oA).Defs.Perm
      (convertedOutput c fs ot ut dir oB).Defs := by
    rw [convertedOutput_Defs, convertedOutput_Defs]
    cases hcv : convertOffsetsFor ot ut with
    | true => rw [if_pos rfl, if_pos rfl]; exact hpd.map _
    | false => rw [if_neg Bool.false_ne_true, if_neg Bool.false_ne_true]; exact hpd
  have hcr : (convertedOutput c fs ot ut dir oA).Refs.Perm
      (convertedOutput c fs ot ut dir oB).Refs := by
    rw [convertedOutput_Refs, convertedOutput_Refs]
    cases hcv : convertOffsetsFor ot ut with
    | true => rw [if_pos rfl, if_pos rfl]; exact (hpr.map _).map _
    | false => rw [if_neg Bool.false_ne_true, if_neg Bool.false_ne_true]; exact hpr.map _
  have hcc : (convertedOutput c fs ot ut dir oA).Docs.Perm
      (convertedOutput c fs ot ut dir oB).Docs := by
    rw [convertedOutput_Docs, convertedOutput_Docs]
    cases hcv : convertOffsetsFor ot ut with
    | true => rw [if_pos rfl, if_pos rfl]; exact hpc.map _
    | false => rw [if_neg Bool.false_ne_true, if_neg Bool.false_ne_true]; exact hpc
  have hca : (convertedOutput c fs ot ut dir oA).Anns.Perm
      (convertedOutput c fs ot ut dir oB).Anns := by
    rw [convertedOutput_Anns, convertedOutput_Anns]
    cases hcv : convertOffsetsFor ot ut with
    | true => rw [if_pos rfl, if_pos rfl]; exact hpa.map _
    | false => rw [if_neg Bool.false_ne_true, if_neg Bool.false_ne_true]; exact hpa
  apply outputExt
  · rw [h4A, h4B]
    exact List.eq_of_perm_of_sorted
      ((List.perm_insertionSort _ _).trans (hcd.trans (List.perm_insertionSort _ _).symm))
      (List.sorted_insertionSort _ _) (List.sorted_insertionSort _ _)
  · rw [h4A, h4B]
    exact List.eq_of_perm_of_sorted
      ((List.perm_insertionSort _ _).trans (hcr.trans (List.perm_insertionSort _ _).symm))
      (List.sorted_insertionSort _ _) (List.sorted_insertionSort _ _)
  · rw [h4A, h4B]
    exact List.eq_of_perm_of_sorted
      ((List.perm_insertionSort _ _).trans (hcc.trans (List.perm_insertionSort _ _).symm))
      (List.sorted_insertionSort _ _) (List.sorted_insertionSort _ _)
  · rw [h4A, h4B]
    exact List.eq_of_perm_of_sorted
      ((List.perm_insertionSort _ _).trans (hca.trans (List.perm_insertionSort _ _).symm))
      (List.sorted_insertionSort _ _) (List.sorted_insertionSort _ _)

def dOrdA : Def := { Path := "a", Name := "na", File := "", DefStart := 1, DefEnd := 2 }

def dOrdB : Def := { Path := "b", Name := "nb", File := "", DefStart := 3, DefEnd := 4 }

def oP1 : Output := { Defs := [dOrdA, dOrdB], Refs := [], Docs := [], Anns := [] }

def oP2 : Output := { Defs := [dOrdB, dOrdA], Refs := [], Docs := [], Anns := [] }

/-- Witness for C8: the two-Def Output and its swapped variant normalize to
the same result. -/
theorem ordering_determinism_witness :
    (NormalizeData cAccept fsCafe OffsetType.OffsetByte "U" "r" oP1).2
      = (NormalizeData cAccept fsCafe OffsetType.OffsetByte "U" "r" oP2).2 :=
  ordering_determinism cAccept fsCafe OffsetType.OffsetByte "U" "r" oP1 oP2
    (NormalizeData cAccept fsCafe OffsetType.OffsetByte "U" "r" oP1).2
    (NormalizeData cAccept fsCafe OffsetType.OffsetByte "U" "r" oP2).2
    defLe0_lawful refLe0_lawful docLe0_lawful annLe0_lawful
    (List.Perm.swap dOrdB dOrdA []) (List.Perm.refl []) (List.Perm.refl [])
    (List.Perm.refl []) (by decide) (by decide)

end Grapher
